import Mathlib

/-!
Shallow embedding of the image-to-ASCII-art core of the `vinylla` repository
(`src/img_to_ascii.rs`): the `Textel` cell type, the `AsciiArt` grid, the
3x3-average sampler (`sample_at`, `AsciiArt::from_image`), the blank-grid
constructor (`blank_art`), and the serde row-sequence codec
(`Serialize for AsciiArt`, `AsciiArtVisitor::visit_seq`).

Machine integers are modelled as `Nat` with explicit truncation (`% 256` for
the `as u8` cast).  Rust control flow that aborts the computation is made
explicit in the result type `ExecResult`:
  * `ok`    — the function returns `Ok(value)`;
  * `err`   — the function returns a serde/io error value to its caller;
  * `crash` — the function aborts by a Rust panic (array index out of
              bounds, unsigned-subtraction underflow, division by zero,
              `get_pixel` out of bounds): no value reaches the caller.
-/

namespace Vinylla

/-- An RGB color: the `[u8; 3]` array of `Textel::color`, one `Nat` per
8-bit channel. -/
structure Rgb where
  r : Nat
  g : Nat
  b : Nat
deriving DecidableEq, Repr

/-- `Textel` from `img_to_ascii.rs`: a glyph and an RGB color. -/
structure Textel where
  char : Char
  color : Rgb
deriving DecidableEq, Repr

/-- A decoded source raster (the `ImageBuffer<Rgb<u8>, Vec<u8>>` after
`into_rgb8()`): dimensions plus a pixel lookup.  Well-formedness of the
channels (each `≤ 255`, as a `u8` guarantees) is a hypothesis of the
theorems that need it. -/
structure Image where
  width : Nat
  height : Nat
  pix : Nat → Nat → Rgb

/-- Result of running a fallible / possibly-panicking Rust function:
`ok` models `Ok(_)`, `err` models an `Err(_)` return, `crash` models an
abort by panic. -/
inductive ExecResult (α : Type) where
  | ok : α → ExecResult α
  | err : ExecResult α
  | crash : ExecResult α
deriving DecidableEq, Repr

/-- The blank cell used by `blank_art`: space glyph, color `[0, 0, 0]`. -/
def blankTextel : Textel := ⟨' ', ⟨0, 0, 0⟩⟩

/-- `blank_art::<WIDTH, HEIGHT>()`: a HEIGHT-row grid, each row WIDTH
copies of the blank textel.  The Rust value `[[Textel; WIDTH]; HEIGHT]`
is embedded as a list of rows, row-major. -/
def blank_art (W H : Nat) : List (List Textel) :=
  List.replicate H (List.replicate W blankTextel)

/-- The nine sample offsets of `sample_at`, row-major as in the source:
`{0, (ratio-1)/2, ratio-1}` on each axis (`Nat` subtraction; the guard in
`sample_at` ensures both ratio components are nonzero before these are
used, matching the Rust `usize` subtraction that would otherwise abort). -/
def offsets (ratio : Nat × Nat) : List (Nat × Nat) :=
  [(0, 0), ((ratio.1 - 1) / 2, 0), (ratio.1 - 1, 0),
   (0, (ratio.2 - 1) / 2), ((ratio.1 - 1) / 2, (ratio.2 - 1) / 2),
     (ratio.1 - 1, (ratio.2 - 1) / 2),
   (0, ratio.2 - 1), ((ratio.1 - 1) / 2, ratio.2 - 1),
     (ratio.1 - 1, ratio.2 - 1)]

/-- The textel value produced by `sample_at` when no abort occurs: read the
nine samples, sum each channel (`u32` sums: nine values `≤ 255` cannot
overflow 32 bits, so plain `Nat` addition is exact), divide by 9, and cast
to `u8` (`% 256`).  The glyph is the solid block. -/
def sampleTextel (tex_x tex_y : Nat) (ratio : Nat × Nat) (image : Image) :
    Textel :=
  let base := (tex_x * ratio.1, tex_y * ratio.2)
  let samples := (offsets ratio).map fun o =>
    image.pix (base.1 + o.1) (base.2 + o.2)
  ⟨'█', ⟨(samples.map Rgb.r).sum / 9 % 256,
         (samples.map Rgb.g).sum / 9 % 256,
         (samples.map Rgb.b).sum / 9 % 256⟩⟩

/-- `sample_at` from `img_to_ascii.rs`.  If either ratio component is 0 the
Rust code aborts (debug: `ratio - 1` underflow panic; release: the wrapped
offset sends `get_pixel` out of bounds, which panics) — modelled as
`crash`.  Likewise any sample coordinate outside the raster would make
`get_pixel` panic.  Otherwise the averaged textel is returned. -/
def sample_at (tex_x tex_y : Nat) (ratio : Nat × Nat) (image : Image) :
    ExecResult Textel :=
  if ratio.1 = 0 ∨ ratio.2 = 0 then .crash
  else
    let base := (tex_x * ratio.1, tex_y * ratio.2)
    if (offsets ratio).all fun o =>
        decide (base.1 + o.1 < image.width) &&
        decide (base.2 + o.2 < image.height) then
      .ok (sampleTextel tex_x tex_y ratio image)
    else .crash

/-- Sequence a list of `ExecResult` computations in order, stopping at the
first `err` or `crash` — the behaviour of the Rust loops, where the first
failing iteration aborts the whole function. -/
def mapExec {α β : Type} (f : α → ExecResult β) :
    List α → ExecResult (List β)
  | [] => .ok []
  | a :: rest =>
    match f a with
    | .ok b =>
      match mapExec f rest with
      | .ok bs => .ok (b :: bs)
      | .err => .err
      | .crash => .crash
    | .err => .err
    | .crash => .crash

/-- `AsciiArt::<WIDTH, HEIGHT>::from_image`.  The Rust code computes
`pix_tex_ratio = (img_w / WIDTH, img_h / HEIGHT)` (a division-by-zero
panic when a grid dimension is 0, modelled by the guard), allocates
`blank_art`, and overwrites `art.data[y][x]` with `sample_at(x, y, ...)`
for every `y < HEIGHT`, `x < WIDTH` in row-major order.  Every cell is
written exactly once, so the mutation loop is embedded as the direct
row-major construction; a panic in `sample_at` aborts the whole
conversion, which `mapExec` propagates from the first failing cell.  The
function body never constructs an `Err`, so `err` is unreachable here. -/
def from_image (W H : Nat) (image : Image) :
    ExecResult (List (List Textel)) :=
  if W = 0 ∨ H = 0 then .crash
  else
    let ratio := (image.width / W, image.height / H)
    mapExec
      (fun y => mapExec (fun x => sample_at x y ratio image) (List.range W))
      (List.range H)

/-- `Serialize for AsciiArt`: a tuple of HEIGHT row-records, each the row's
WIDTH textels in order (the `RowWrapper` contributes no data of its own).
At row/cell granularity the serialized form is exactly the list of rows. -/
def serialize (art : List (List Textel)) : List (List Textel) := art

/-- The loop of `AsciiArtVisitor::visit_seq`.  Each `next_element::
<RowWrapper<WIDTH>>()?` first deserializes the row, returning `Err` to the
caller when the row does not have exactly WIDTH cells (serde_json rejects
both shorter and longer arrays for a `[Textel; WIDTH]`); then
`art.data[i] = row.row` panics when `i` is outside the HEIGHT-row array.
`i` increments per row; the loop ends at `None` and returns `Ok(art)`. -/
def deserialize_go (W : Nat) (art : List (List Textel)) (i : Nat) :
    List (List Textel) → ExecResult (List (List Textel))
  | [] => .ok art
  | row :: rest =>
    if row.length ≠ W then .err
    else if art.length ≤ i then .crash
    else deserialize_go W (art.set i row) (i + 1) rest

/-- `AsciiArtVisitor::visit_seq`: start from `blank_art` and fold the
incoming row-records into it. -/
def visit_seq (W H : Nat) (input : List (List Textel)) :
    ExecResult (List (List Textel)) :=
  deserialize_go W (blank_art W H) 0 input

/-- The shape invariant of `AsciiArt<WIDTH, HEIGHT>`: H rows of W cells,
guaranteed in Rust by the array type `[[Textel; WIDTH]; HEIGHT]`. -/
abbrev GridWF (W H : Nat) (g : List (List Textel)) : Prop :=
  g.length = H ∧ ∀ row ∈ g, row.length = W

/-- Cell lookup in a conversion/decode result: `none` when the computation
did not return a grid or the indices are out of range. -/
def gridCell (res : ExecResult (List (List Textel))) (x y : Nat) :
    Option Textel :=
  match res with
  | .ok g => (g.get? y).bind fun row => row.get? x
  | .err => none
  | .crash => none

/-! ### Concrete inputs used by the claim witnesses and counterexamples -/

/-- A 1×1 all-black raster: smaller than a 2×2 grid in both dimensions. -/
def tinyImg : Image := ⟨1, 1, fun _ _ => ⟨0, 0, 0⟩⟩

/-- A 3×2 raster of the uniform color (10, 20, 30). -/
def uniformImg : Image := ⟨3, 2, fun _ _ => ⟨10, 20, 30⟩⟩

/-- A 2×3 raster with pixel `(p, q) = ((p + q) % 256, 40, 200)`. -/
def witImg : Image := ⟨2, 3, fun p q => ⟨(p + q) % 256, 40, 200⟩⟩

/-- The 90×60 checkerboard of black/white 2×2 pixel blocks from the spec's
example scenario: block `(p / 2, q / 2)` is black when the block
coordinates have even sum. -/
def checkerImg : Image :=
  ⟨90, 60, fun p q =>
    if (p / 2 + q / 2) % 2 = 0 then ⟨0, 0, 0⟩ else ⟨255, 255, 255⟩⟩

/-- What sampling the checkerboard to 45×20 actually produces: each cell's
3-pixel-tall footprint straddles two 2-pixel block rows, mixing 6 samples
of one block color with 3 of the other, so each cell averages to
(85,85,85) (black-majority) or (170,170,170) (white-majority), the
majority block being determined by `(x + (3y+1)/2) % 2`. -/
def checkerExpected : List (List Textel) :=
  (List.range 20).map fun y => (List.range 45).map fun x =>
    if (x + (3 * y + 1) / 2) % 2 = 0 then ⟨'█', ⟨85, 85, 85⟩⟩
    else ⟨'█', ⟨170, 170, 170⟩⟩

/-- A well-formed 2×2 grid used to exercise the round-trip law. -/
def rtGrid : List (List Textel) :=
  [[⟨'█', ⟨1, 2, 3⟩⟩, blankTextel], [blankTextel, ⟨'█', ⟨200, 100, 50⟩⟩]]

/-- Three row-records for a 1×1 grid: two well-formed rows followed by an
over-long one.  The decode loop panics on the second row's out-of-bounds
write before ever reaching the malformed third row. -/
def badRowInput : List (List Textel) :=
  [[blankTextel], [blankTextel], [blankTextel, blankTextel]]

/-- Two rasters with different pixel closures but identical content on
their shared 1×1 domain. -/
def detImgA : Image := ⟨1, 1, fun _ _ => ⟨5, 6, 7⟩⟩

/-- See `detImgA`. -/
def detImgB : Image := ⟨1, 1, fun _ _ => ⟨4 + 1, 6, 7⟩⟩

/-! ### Helper lemmas -/

/-- Every offset of the 3x3 pattern is at most `ratio - 1` on each axis. -/
lemma offset_le (ratio : Nat × Nat) (o : Nat × Nat) (ho : o ∈ offsets ratio) :
    o.1 ≤ ratio.1 - 1 ∧ o.2 ≤ ratio.2 - 1 := by
  simp only [offsets, List.mem_cons, List.not_mem_nil, or_false] at ho
  rcases ho with h | h | h | h | h | h | h | h | h <;> subst h <;>
    constructor <;> simp <;> omega

/-- Arithmetic core of the in-bounds argument: a cell position `pos < grid`
with an offset `off ≤ ratio - 1` stays inside the source dimension, where
`ratio = dim / grid ≥ 1`. -/
lemma base_offset_lt (dim grid pos off : Nat) (hpos : pos < grid)
    (hr : 1 ≤ dim / grid) (hoff : off ≤ dim / grid - 1) :
    pos * (dim / grid) + off < dim := by
  have h1 : dim / grid * grid ≤ dim := Nat.div_mul_le_self dim grid
  have h2 : (pos + 1) * (dim / grid) ≤ grid * (dim / grid) :=
    Nat.mul_le_mul_right _ (by omega)
  have h3 : (pos + 1) * (dim / grid) = pos * (dim / grid) + dim / grid := by
    ring
  have h4 : grid * (dim / grid) = dim / grid * grid := Nat.mul_comm _ _
  omega

/-- On a cell inside the grid with both ratios at least 1, `sample_at` takes
no abort branch and returns the averaged textel. -/
lemma sample_at_ok (x y W H : Nat) (img : Image) (hx : x < W) (hy : y < H)
    (hrx : 1 ≤ img.width / W) (hry : 1 ≤ img.height / H) :
    sample_at x y (img.width / W, img.height / H) img =
      .ok (sampleTextel x y (img.width / W, img.height / H) img) := by
  rw [sample_at, if_neg (by omega)]
  have hbound : ∀ o ∈ offsets (img.width / W, img.height / H),
      x * (img.width / W) + o.1 < img.width ∧
        y * (img.height / H) + o.2 < img.height := by
    intro o ho
    have h := offset_le _ o ho
    exact ⟨base_offset_lt _ _ _ _ hx hrx h.1, base_offset_lt _ _ _ _ hy hry h.2⟩
  rw [if_pos]
  rw [List.all_eq_true]
  intro o ho
  have h := hbound o ho
  simp only [Bool.and_eq_true, decide_eq_true_eq]
  exact h

/-- If either ratio component is zero, `sample_at` aborts. -/
lemma sample_at_crash (x y : Nat) (ratio : Nat × Nat) (img : Image)
    (h : ratio.1 = 0 ∨ ratio.2 = 0) : sample_at x y ratio img = .crash := by
  rw [sample_at, if_pos h]

/-- `mapExec` of a list whose every element succeeds is the `ok` of the map
of the produced values. -/
lemma mapExec_ok {α β : Type} (f : α → ExecResult β) (g : α → β)
    (l : List α) (h : ∀ a ∈ l, f a = .ok (g a)) :
    mapExec f l = .ok (l.map g) := by
  induction l with
  | nil => rfl
  | cons a rest ih =>
    rw [List.map_cons, mapExec, h a (List.mem_cons_self a rest),
      ih fun b hb => h b (List.mem_cons_of_mem a hb)]

/-- `mapExec` aborts as soon as its first element aborts. -/
lemma mapExec_cons_crash {α β : Type} (f : α → ExecResult β) (a : α)
    (l : List α) (h : f a = .crash) : mapExec f (a :: l) = .crash := by
  rw [mapExec, h]

/-- `mapExec` of a nonempty list of aborting computations aborts. -/
lemma mapExec_crash {α β : Type} (f : α → ExecResult β) (l : List α)
    (hne : l ≠ []) (h : ∀ a ∈ l, f a = .crash) : mapExec f l = .crash := by
  cases l with
  | nil => exact absurd rfl hne
  | cons a rest =>
    exact mapExec_cons_crash f a rest (h a (List.mem_cons_self a rest))

/-- The `u32 / 9` average of nine `u8` samples fits in a `u8`, so the
truncating cast `as u8` is the identity on it. -/
lemma avg_u8 (l : List Nat) (h9 : l.length = 9) (hb : ∀ n ∈ l, n ≤ 255) :
    l.sum / 9 % 256 = l.sum / 9 := by
  have hs := List.sum_le_card_nsmul l 255 hb
  rw [h9, smul_eq_mul] at hs
  exact Nat.mod_eq_of_lt (by omega)

/-- `sampleTextel` on a raster whose channels fit in a `u8`: the average is
exactly the channel sum over the nine offsets divided by 9. -/
lemma sampleTextel_eq_of_u8 (x y : Nat) (rat : Nat × Nat) (img : Image)
    (hpix : ∀ p q, (img.pix p q).r ≤ 255 ∧ (img.pix p q).g ≤ 255 ∧
      (img.pix p q).b ≤ 255) :
    sampleTextel x y rat img = ⟨'█',
      ⟨((offsets rat).map fun o =>
          (img.pix (x * rat.1 + o.1) (y * rat.2 + o.2)).r).sum / 9,
       ((offsets rat).map fun o =>
          (img.pix (x * rat.1 + o.1) (y * rat.2 + o.2)).g).sum / 9,
       ((offsets rat).map fun o =>
          (img.pix (x * rat.1 + o.1) (y * rat.2 + o.2)).b).sum / 9⟩⟩ := by
  simp only [sampleTextel, List.map_map, Function.comp_def]
  congr 1
  congr 1
  · exact avg_u8 _ (by simp [offsets]) (by
      intro n hn
      simp only [List.mem_map] at hn
      obtain ⟨o, ho, rfl⟩ := hn
      exact (hpix _ _).1)
  · exact avg_u8 _ (by simp [offsets]) (by
      intro n hn
      simp only [List.mem_map] at hn
      obtain ⟨o, ho, rfl⟩ := hn
      exact (hpix _ _).2.1)
  · exact avg_u8 _ (by simp [offsets]) (by
      intro n hn
      simp only [List.mem_map] at hn
      obtain ⟨o, ho, rfl⟩ := hn
      exact (hpix _ _).2.2)

/-- `sampleTextel` on a uniform raster reproduces the color exactly. -/
lemma sampleTextel_const (x y : Nat) (rat : Nat × Nat) (img : Image)
    (c : Rgb) (hpix : ∀ p q, img.pix p q = c) (hcr : c.r ≤ 255)
    (hcg : c.g ≤ 255) (hcb : c.b ≤ 255) :
    sampleTextel x y rat img = ⟨'█', c⟩ := by
  simp only [sampleTextel, hpix, offsets, List.map_cons, List.map_nil,
    List.sum_cons, List.sum_nil]
  congr 1
  congr 1 <;> omega

/-- With both ratios at least 1, `from_image` succeeds and the grid is the
row-major table of `sampleTextel` values. -/
lemma from_image_ok (W H : Nat) (img : Image)
    (hrx : 1 ≤ img.width / W) (hry : 1 ≤ img.height / H) :
    from_image W H img = .ok ((List.range H).map fun y =>
      (List.range W).map fun x =>
        sampleTextel x y (img.width / W, img.height / H) img) := by
  have hW : W ≠ 0 := by
    intro h
    rw [h, Nat.div_zero] at hrx
    omega
  have hH : H ≠ 0 := by
    intro h
    rw [h, Nat.div_zero] at hry
    omega
  rw [from_image, if_neg (by omega)]
  exact mapExec_ok _ _ _ fun y hy =>
    mapExec_ok _ _ _ fun x hx =>
      sample_at_ok x y W H img (List.mem_range.mp hx) (List.mem_range.mp hy)
        hrx hry

/-- Decode loop, success case: rows of the right width that fit inside the
array overwrite the slots `i, i+1, ...` and leave the rest of `art`. -/
lemma deserialize_go_ok (W : Nat) (rows : List (List Textel)) :
    ∀ (art : List (List Textel)) (i : Nat), (∀ r ∈ rows, r.length = W) →
      i + rows.length ≤ art.length →
      deserialize_go W art i rows =
        .ok (art.take i ++ rows ++ art.drop (i + rows.length)) := by
  induction rows with
  | nil =>
    intro art i _ _
    rw [deserialize_go]
    simp only [List.length_nil, Nat.add_zero, List.append_nil]
    rw [List.take_append_drop]
  | cons r rs ih =>
    intro art i hlen hle
    have hr : r.length = W := hlen r (List.mem_cons_self r rs)
    have hcons : (r :: rs).length = rs.length + 1 := List.length_cons r rs
    have hi : i < art.length := by omega
    rw [deserialize_go, if_neg (by omega), if_neg (by omega),
      ih (art.set i r) (i + 1)
        (fun b hb => hlen b (List.mem_cons_of_mem r hb))
        (by rw [List.length_set]; omega)]
    congr 1
    have hdrop : List.drop (i + 1 + rs.length) (art.set i r) =
        List.drop (i + 1 + rs.length) art :=
      List.drop_set_of_lt _ _ (by omega)
    have htake1 : List.take (i + 1) (art.set i r) =
        List.take i art ++ [r] := by
      rw [List.set_eq_take_append_cons_drop, if_pos hi,
        List.take_append_eq_append_take,
        List.take_of_length_le (by rw [List.length_take]; omega)]
      have h0 : i + 1 - (List.take i art).length = 1 := by
        rw [List.length_take]
        omega
      rw [h0, List.take_succ_cons, List.take_zero]
    rw [hdrop, htake1]
    have hidx : i + (r :: rs).length = i + 1 + rs.length := by omega
    rw [hidx]
    simp

/-- Decode loop, abort case: if the well-formed rows outnumber the free
slots, the write `art.data[i]` goes out of bounds and the loop panics. -/
lemma deserialize_go_crash (W : Nat) (rows : List (List Textel)) :
    ∀ (art : List (List Textel)) (i : Nat), (∀ r ∈ rows, r.length = W) →
      art.length < i + rows.length → i ≤ art.length →
      deserialize_go W art i rows = .crash := by
  induction rows with
  | nil =>
    intro art i _ h1 h2
    exfalso
    simp only [List.length_nil] at h1
    omega
  | cons r rs ih =>
    intro art i hlen h1 h2
    have hr : r.length = W := hlen r (List.mem_cons_self r rs)
    have hcons : (r :: rs).length = rs.length + 1 := List.length_cons r rs
    rw [deserialize_go, if_neg (by omega)]
    by_cases hi : art.length ≤ i
    · rw [if_pos hi]
    · rw [if_neg hi]
      exact ih (art.set i r) (i + 1)
        (fun b hb => hlen b (List.mem_cons_of_mem r hb))
        (by rw [List.length_set]; omega)
        (by rw [List.length_set]; omega)

/-- Decode loop, error case: a row of the wrong width reached before any
out-of-bounds write makes `next_element` fail, and the error propagates. -/
lemma deserialize_go_err (W : Nat) (pre : List (List Textel))
    (bad : List Textel) (rest : List (List Textel)) :
    ∀ (art : List (List Textel)) (i : Nat), (∀ r ∈ pre, r.length = W) →
      bad.length ≠ W → i + pre.length ≤ art.length →
      deserialize_go W art i (pre ++ bad :: rest) = .err := by
  induction pre with
  | nil =>
    intro art i _ hbad _
    rw [List.nil_append, deserialize_go, if_pos hbad]
  | cons r rs ih =>
    intro art i hlen hbad hle
    have hr : r.length = W := hlen r (List.mem_cons_self r rs)
    have hi : i < art.length := by
      have := List.length_cons r rs
      omega
    rw [List.cons_append, deserialize_go, if_neg (by omega),
      if_neg (by omega)]
    exact ih (art.set i r) (i + 1)
      (fun b hb => hlen b (List.mem_cons_of_mem r hb)) hbad
      (by rw [List.length_set]; have := List.length_cons r rs; omega)

/-! ### Claims -/

/-- C1, counterexample: converting a 1×1 image to a 2×2 grid does not
produce a caller-detectable error — `from_image` has no error path at all;
the conversion aborts by panic inside the first `sample_at` call. -/
theorem C1_counterexample :
    from_image 2 2 tinyImg = .crash ∧
      from_image 2 2 tinyImg ≠ (.err : ExecResult (List (List Textel))) := by
  decide

/-- C1, amended: if the source image is smaller than the target grid in
either dimension, `from_image` never returns (neither `Ok` nor `Err`): the
per-axis ratio is 0 and the sampling arithmetic aborts the conversion by
panic at the first cell, producing no grid and no other effect. -/
theorem C1_amended (W H : Nat) (img : Image)
    (h : img.width < W ∨ img.height < H) :
    from_image W H img = .crash := by
  rw [from_image]
  by_cases hWH : W = 0 ∨ H = 0
  · rw [if_pos hWH]
  · rw [if_neg hWH]
    push_neg at hWH
    have hratio : img.width / W = 0 ∨ img.height / H = 0 := by
      rcases h with h | h
      · exact Or.inl (Nat.div_eq_of_lt h)
      · exact Or.inr (Nat.div_eq_of_lt h)
    refine mapExec_crash _ _ ?_ ?_
    · simp only [ne_eq, List.range_eq_nil]
      exact hWH.2
    · intro y hy
      refine mapExec_crash _ _ ?_ ?_
      · simp only [ne_eq, List.range_eq_nil]
        exact hWH.1
      · intro x hx
        exact sample_at_crash x y _ img hratio

/-- C1, witness for the amended theorem at the concrete 1×1 image. -/
theorem C1_witness : from_image 2 2 tinyImg = .crash :=
  C1_amended 2 2 tinyImg (Or.inl (by decide))

/-- C2: for every well-formed W×H grid, decoding the serialization of the
grid yields the grid back, cell for cell (glyph and all three channels). -/
theorem C2_roundtrip (W H : Nat) (g : List (List Textel))
    (hwf : GridWF W H g) : visit_seq W H (serialize g) = .ok g := by
  obtain ⟨hH, hW⟩ := hwf
  rw [serialize, visit_seq,
    deserialize_go_ok W g (blank_art W H) 0 hW
      (by simp only [blank_art, List.length_replicate]; omega)]
  simp [blank_art, List.drop_replicate, hH]

/-- C2, witness: the round trip on a concrete 2×2 grid. -/
theorem C2_witness : visit_seq 2 2 (serialize rtGrid) = .ok rtGrid :=
  C2_roundtrip 2 2 rtGrid (by decide)

/-- C3: sampling a uniform-color source image of sufficient size produces
the grid in which every cell is the block glyph with exactly that color:
the integer average of 9 identical u8 samples is lossless. -/
theorem C3_uniform (W H : Nat) (img : Image) (c : Rgb)
    (hW : 0 < W) (hH : 0 < H) (hw : W ≤ img.width) (hh : H ≤ img.height)
    (hcr : c.r ≤ 255) (hcg : c.g ≤ 255) (hcb : c.b ≤ 255)
    (hpix : ∀ p q, img.pix p q = c) :
    from_image W H img =
      .ok (List.replicate H (List.replicate W ⟨'█', c⟩)) := by
  have hrx : 1 ≤ img.width / W := (Nat.one_le_div_iff hW).2 hw
  have hry : 1 ≤ img.height / H := (Nat.one_le_div_iff hH).2 hh
  rw [from_image_ok W H img hrx hry]
  congr 1
  have hrow : ∀ y : Nat, ((List.range W).map fun x =>
      sampleTextel x y (img.width / W, img.height / H) img) =
      List.replicate W (⟨'█', c⟩ : Textel) := by
    intro y
    have : ∀ x ∈ List.range W,
        sampleTextel x y (img.width / W, img.height / H) img =
          (⟨'█', c⟩ : Textel) := fun x _ =>
      sampleTextel_const x y _ img c hpix hcr hcg hcb
    rw [List.map_congr_left this, List.map_const', List.length_range]
  rw [List.map_congr_left fun y _ => hrow y, List.map_const',
    List.length_range]

/-- C3, witness at a concrete uniform 3×2 image. -/
theorem C3_witness :
    from_image 3 2 uniformImg =
      .ok (List.replicate 2 (List.replicate 3 ⟨'█', ⟨10, 20, 30⟩⟩)) :=
  C3_uniform 3 2 uniformImg ⟨10, 20, 30⟩ (by decide) (by decide) (by decide)
    (by decide) (by decide) (by decide) (by decide) fun p q => rfl

/-- C4: for a cell (x, y) of the grid with both per-axis ratios at least 1
and u8-valid pixels, the cell holds the block glyph and the color obtained
by reading the 9 source pixels at base `(x·ratio_x, y·ratio_y)` plus the
3×3 offsets, summing each channel over the 9 samples, and dividing each
sum by 9 with truncation. -/
theorem C4_cell_formula (W H x y : Nat) (img : Image)
    (hrx : 1 ≤ img.width / W) (hry : 1 ≤ img.height / H)
    (hx : x < W) (hy : y < H)
    (hpix : ∀ p q, (img.pix p q).r ≤ 255 ∧ (img.pix p q).g ≤ 255 ∧
      (img.pix p q).b ≤ 255) :
    gridCell (from_image W H img) x y = some
      ⟨'█',
       ⟨((offsets (img.width / W, img.height / H)).map fun o =>
           (img.pix (x * (img.width / W) + o.1)
             (y * (img.height / H) + o.2)).r).sum / 9,
        ((offsets (img.width / W, img.height / H)).map fun o =>
           (img.pix (x * (img.width / W) + o.1)
             (y * (img.height / H) + o.2)).g).sum / 9,
        ((offsets (img.width / W, img.height / H)).map fun o =>
           (img.pix (x * (img.width / W) + o.1)
             (y * (img.height / H) + o.2)).b).sum / 9⟩⟩ := by
  rw [from_image_ok W H img hrx hry]
  simp only [gridCell, List.get?_map, List.get?_range hy, Option.map_some',
    Option.some_bind, List.get?_range hx]
  rw [sampleTextel_eq_of_u8 x y _ img hpix]

/-- C4, witness at cell (0,0) of a concrete 2×3 image (ratios 1×1). -/
theorem C4_witness :
    gridCell (from_image 2 3 witImg) 0 0 =
      some ⟨'█', ⟨0, 40, 200⟩⟩ :=
  C4_cell_formula 2 3 0 0 witImg (by decide) (by decide) (by decide)
    (by decide) fun p q =>
      ⟨Nat.lt_succ_iff.mp (Nat.mod_lt _ (by decide)),
       (by decide : (40 : Nat) ≤ 255), (by decide : (200 : Nat) ≤ 255)⟩

/-- C5, counterexample: on the 90×60 black/white 2×2-block checkerboard
sampled to 45×20, cell (0,0) is neither (0,0,0) nor (255,255,255) — the
grid does not alternate between pure black and pure white. -/
theorem C5_counterexample :
    gridCell (from_image 45 20 checkerImg) 0 0 ≠
        some ⟨'█', ⟨0, 0, 0⟩⟩ ∧
      gridCell (from_image 45 20 checkerImg) 0 0 ≠
        some ⟨'█', ⟨255, 255, 255⟩⟩ := by
  decide

set_option maxRecDepth 10000 in
/-- C5, amended: sampling the aligned 2×2-block checkerboard 90×60 image to
45×20 (ratios 2 and 3) produces cells alternating along each row between
(85,85,85) and (170,170,170): each cell's 3-pixel-tall footprint straddles
two block rows, so 6 of the 9 samples come from one block color and 3 from
the other, and the majority block is given by `(x + (3y+1)/2) % 2`. -/
theorem C5_amended_checkerboard :
    from_image 45 20 checkerImg = .ok checkerExpected := by
  decide

/-- C6, counterexample: a persisted sequence whose third row-record has
W+1 cells (W = H = 1) does not produce a decode error: the loop panics on
the out-of-bounds write of the second well-formed row before the malformed
row is ever examined. -/
theorem C6_counterexample :
    visit_seq 1 1 badRowInput = .crash ∧
      visit_seq 1 1 badRowInput ≠
        (.err : ExecResult (List (List Textel))) := by
  decide

/-- C6, amended: if at most H well-formed rows precede it (so no
out-of-bounds row write happens first), a row-record that does not contain
exactly W cells makes deserialization return a structural decode error —
never a silent truncation or pad. -/
theorem C6_amended (W H : Nat) (pre : List (List Textel))
    (bad : List Textel) (rest : List (List Textel))
    (hpre : ∀ r ∈ pre, r.length = W) (hbad : bad.length ≠ W)
    (hcount : pre.length ≤ H) :
    visit_seq W H (pre ++ bad :: rest) = .err := by
  rw [visit_seq]
  exact deserialize_go_err W pre bad rest (blank_art W H) 0 hpre hbad
    (by simp only [blank_art, List.length_replicate]; omega)

/-- C6, witness: a malformed second row (3 cells instead of 2) behind one
well-formed row is reported as a decode error. -/
theorem C6_witness :
    visit_seq 2 2 ([[blankTextel, blankTextel]] ++
      [blankTextel, blankTextel, blankTextel] :: []) = .err :=
  C6_amended 2 2 [[blankTextel, blankTextel]]
    [blankTextel, blankTextel, blankTextel] [] (by decide) (by decide)
    (by decide)

/-- C7: deserializing fewer than H row-records, each of exactly W cells,
succeeds (`Ok`, recoverable) with the given rows at the top of the W×H
grid, in order, and every remaining row blank. -/
theorem C7_short_input (W H : Nat) (rows : List (List Textel))
    (hlen : ∀ r ∈ rows, r.length = W) (hcount : rows.length < H) :
    visit_seq W H rows =
      .ok (rows ++ List.replicate (H - rows.length)
        (List.replicate W blankTextel)) := by
  rw [visit_seq,
    deserialize_go_ok W rows (blank_art W H) 0 hlen
      (by simp only [blank_art, List.length_replicate]; omega)]
  simp [blank_art, List.drop_replicate]

/-- C7, witness: one row decoded into a 1×2 grid, second row blank. -/
theorem C7_witness :
    visit_seq 1 2 [[⟨'█', ⟨9, 9, 9⟩⟩]] =
      .ok ([[⟨'█', ⟨9, 9, 9⟩⟩]] ++
        List.replicate (2 - 1) (List.replicate 1 blankTextel)) :=
  C7_short_input 1 2 [[⟨'█', ⟨9, 9, 9⟩⟩]] (by decide) (by decide)

/-- C8: `blank_art` returns a grid of exactly the requested W×H dimensions
in which every cell's glyph is the space character and every cell's color
is (0,0,0). -/
theorem C8_blank_art_spec (W H : Nat) :
    (blank_art W H).length = H ∧
      ∀ row ∈ blank_art W H, row.length = W ∧
        ∀ t ∈ row, t.char = ' ' ∧ t.color = ⟨0, 0, 0⟩ := by
  refine ⟨by simp [blank_art], ?_⟩
  intro row hrow
  simp only [blank_art] at hrow
  have hr := List.eq_of_mem_replicate hrow
  subst hr
  refine ⟨by simp, ?_⟩
  intro t ht
  have hteq := List.eq_of_mem_replicate ht
  subst hteq
  exact ⟨rfl, rfl⟩

/-- C8, witness: the property instantiated down to the one blank cell. -/
theorem C8_witness :
    blankTextel.char = ' ' ∧ blankTextel.color = ⟨0, 0, 0⟩ :=
  ((C8_blank_art_spec 2 1).2 (List.replicate 2 blankTextel)
      (by simp [blank_art])).2 blankTextel (by simp)

/-- C9: for source images at least as large as the grid, `from_image`
succeeds with a grid of exactly H rows of W cells; and it is
deterministic in the raster content: two rasters of the same dimensions
that agree on every in-range pixel produce identical results. -/
theorem C9_shape_and_determinism (W H : Nat) (img1 img2 : Image)
    (hW : 0 < W) (hH : 0 < H)
    (hw : W ≤ img1.width) (hh : H ≤ img1.height)
    (hweq : img1.width = img2.width) (hheq : img1.height = img2.height)
    (hpix : ∀ p, p < img1.width → ∀ q, q < img1.height →
      img1.pix p q = img2.pix p q) :
    (∃ g, from_image W H img1 = .ok g ∧ g.length = H ∧
        ∀ row ∈ g, row.length = W) ∧
      from_image W H img1 = from_image W H img2 := by
  have hrx : 1 ≤ img1.width / W := (Nat.one_le_div_iff hW).2 hw
  have hry : 1 ≤ img1.height / H := (Nat.one_le_div_iff hH).2 hh
  have hrx2 : 1 ≤ img2.width / W := by
    rw [← hweq]
    exact hrx
  have hry2 : 1 ≤ img2.height / H := by
    rw [← hheq]
    exact hry
  constructor
  · refine ⟨_, from_image_ok W H img1 hrx hry, by simp, ?_⟩
    intro row hrow
    simp only [List.mem_map] at hrow
    obtain ⟨z, hz, rfl⟩ := hrow
    simp
  · rw [from_image_ok W H img1 hrx hry, from_image_ok W H img2 hrx2 hry2,
      ← hweq, ← hheq]
    have hcell : ∀ y, y < H → ∀ x, x < W →
        sampleTextel x y (img1.width / W, img1.height / H) img1 =
          sampleTextel x y (img1.width / W, img1.height / H) img2 := by
      intro y hy x hx
      have hsame : ∀ o ∈ offsets (img1.width / W, img1.height / H),
          img1.pix (x * (img1.width / W) + o.1)
              (y * (img1.height / H) + o.2) =
            img2.pix (x * (img1.width / W) + o.1)
              (y * (img1.height / H) + o.2) := by
        intro o ho
        have hole := offset_le _ o ho
        exact hpix _ (base_offset_lt _ _ _ _ hx hrx hole.1) _
          (base_offset_lt _ _ _ _ hy hry hole.2)
      simp only [sampleTextel]
      rw [List.map_congr_left hsame]
    exact congrArg ExecResult.ok
      (List.map_congr_left fun y hy =>
        List.map_congr_left fun x hx =>
          hcell y (List.mem_range.mp hy) x (List.mem_range.mp hx))

/-- C9, witness: two 1×1 rasters with syntactically different pixel
functions but identical content produce identical grids. -/
theorem C9_witness : from_image 1 1 detImgA = from_image 1 1 detImgB :=
  (C9_shape_and_determinism 1 1 detImgA detImgB (by decide) (by decide)
    (by decide) (by decide) rfl rfl fun p _ q _ => rfl).2

/-- C10: feeding more than H row-records of exactly W cells each into the
deserializer does not produce a decode error: the write `art.data[i]` with
`i = H` is out of bounds, so the operation aborts by panic. -/
theorem C10_overflow_panics (W H : Nat) (input : List (List Textel))
    (hlen : ∀ r ∈ input, r.length = W) (hcount : H < input.length) :
    visit_seq W H input = .crash := by
  rw [visit_seq]
  exact deserialize_go_crash W input (blank_art W H) 0 hlen
    (by simp only [blank_art, List.length_replicate]; omega)
    (Nat.zero_le _)

/-- C10, witness: two well-formed rows into a 1×1 grid panic. -/
theorem C10_witness :
    visit_seq 1 1 [[blankTextel], [blankTextel]] = .crash :=
  C10_overflow_panics 1 1 [[blankTextel], [blankTextel]] (by decide)
    (by decide)

end Vinylla
